import Mathlib

/-!
Verification of the SC ice-storm news aggregation pipeline
(source: src/api/crawl.py).

Python strings are embedded as `List Char`; Python substring containment
(the `in` operator) is embedded as `strIn`; `str.lower` is embedded as
`pyLower` (the texts involved are ASCII, where `Char.toLower` agrees with
Python).  Python `datetime` values are embedded as their timestamp in
seconds (an `Int`), an order-isomorphic representation of naive datetime
comparison and of `timedelta` arithmetic.
-/

namespace Crawl

/-- Python is-whitespace test for the ASCII whitespace characters
recognised by `str.strip` and by the regex class used in `crawl.py`. -/
def isSpaceChar (c : Char) : Bool :=
  c == ' ' || c == '\t' || c == '\n' || c == '\r' || c == '\x0b' || c == '\x0c'

/-- Embedding of Python `str.lower` for the ASCII texts handled by the
crawler. -/
def pyLower (s : List Char) : List Char :=
  s.map Char.toLower

/-- Embedding of Python `str.strip()` (both ends, ASCII whitespace). -/
def pyStrip (s : List Char) : List Char :=
  ((s.dropWhile isSpaceChar).reverse.dropWhile isSpaceChar).reverse

/-- Embedding of the Python substring test `pat in text`. -/
def strIn (pat : List Char) : List Char → Bool
  | [] => pat.isEmpty
  | c :: rest => pat.isPrefixOf (c :: rest) || strIn pat rest

/-- The case-folded concatenation `f"{title} {description}".lower()`
built at the top of `is_relevant`. -/
def mkText (title description : List Char) : List Char :=
  pyLower (title ++ ' ' :: description)

/-- The fixed exclusion list of `is_relevant` (crime/violence, sports,
obituaries, politics, entertainment, photo-gallery phrasing). -/
def exclude_terms : List (List Char) :=
  ["shooting", "shot", "murder", "killed", "homicide", "gunfire", "gunman",
   "arrest", "arrested", "charged", "custody", "suspect", "investigation",
   "standoff", "police say", "sheriff", "deputies",
   "robbery", "assault", "stabbing", "stabbed",
   "drug", "trafficking", "cocaine", "heroin", "fentanyl", "meth",
   "machine gun", "weapon", "firearm",
   "missing person", "found dead", "body found",
   "traffic stop", "pulled over", "dui", "dwi",
   "hospice", "funeral", "obituary", "died of", "passes away", "cancer",
   "football", "basketball", "baseball", "soccer", "nfl", "nba", "ncaa",
   "game day", "touchdown", "playoff", "coach enters",
   "election", "vote", "ballot", "campaign", "democrat", "republican",
   "congress", "senate",
   "real estate", "restaurant", "recipe", "entertainment", "movie", "concert",
   "live cam", "live look", "photos:", "viewer", "share their",
   "fun in the snow", "snow day:", "afterglow", "snow photos",
   "live cams:", "photo gallery"].map String.toList

/-- The location tokens tested inside the red-cross override of
`is_relevant`. -/
def override_locations : List (List Char) :=
  ["south carolina", " sc ", "carolina"].map String.toList

/-- The South-Carolina location gate token list of `is_relevant`. -/
def location_terms : List (List Char) :=
  ["south carolina", " sc ", "columbia", "greenville", "charleston",
   "spartanburg", "upstate", "midlands", "lowcountry", "pee dee",
   "anderson", "florence", "myrtle beach", "rock hill", "sumter",
   "aiken", "orangeburg", "beaufort", "hilton head", "lexington",
   "richland", "horry", "york", "berkeley", "dorchester", "pickens",
   "oconee", "laurens", "newberry", "saluda", "edgefield", "abbeville",
   "grand strand", "santee", "lake murray", "clemson", "conway"].map String.toList

/-- The winter-weather/emergency topic gate token list of `is_relevant`. -/
def weather_terms : List (List Char) :=
  ["ice storm", "winter storm", "winter weather", "freezing rain",
   "freezing temperature", "sleet",
   "power outage", "outage", "without power",
   "shelter", "warming center",
   "extreme cold", "bitter cold", "cold warning", "cold temperature",
   "dangerous cold", "dangerously cold", "wind chill",
   "duke energy", "dominion energy", "santee cooper",
   "school clos", "school delay", "e-learning", "elearning",
   "state of emergency", "governor", "mcmaster",
   "road clos", "bridge clos", "icy road", "hazardous travel",
   "stay off the road", "impassible", "snow",
   "red cross", "national guard", "hypothermia"].map String.toList

/-- The literal phrase tested by the override and by the recency filter. -/
def red_cross_term : List Char :=
  "red cross".toList

/-- The phrase tested by the North-Carolina disambiguation rule. -/
def north_carolina_term : List Char :=
  "north carolina".toList

/-- The phrase whose presence cancels the North-Carolina rule. -/
def south_carolina_term : List Char :=
  "south carolina".toList

/-- Embedding of `is_relevant(title, description)` from crawl.py:
exclusion list first, then the red-cross override, then the
North-Carolina disambiguation, then the location-and-topic conjunction. -/
def is_relevant (title description : List Char) : Bool :=
  let text := mkText title description
  if exclude_terms.any (fun t => strIn t text) then
    false
  else if strIn red_cross_term text && override_locations.any (fun t => strIn t text) then
    true
  else
    let location_match := location_terms.any (fun t => strIn t text)
    let nc_only := strIn north_carolina_term text && !(strIn south_carolina_term text)
    if nc_only then
      false
    else
      location_match && weather_terms.any (fun t => strIn t text)

/-- Days from 1970-01-01 of a civil date (the standard civil-calendar
day-count algorithm); all intermediate values are nonnegative for the
years admitted by Python `datetime` (1..9999). -/
def daysFromCivil (y m d : Int) : Int :=
  let yy := if m <= 2 then y - 1 else y
  let era := yy / 400
  let yoe := yy - era * 400
  let mp := (m + 9) % 12
  let doy := (153 * mp + 2) / 5 + d - 1
  let doe := yoe * 365 + yoe / 4 - yoe / 100 + doy
  era * 146097 + doe - 719468

/-- Timestamp in seconds of a civil datetime; the representation of a
Python naive `datetime` value in this embedding. -/
def toTimestamp (y mo d h mi s : Nat) : Int :=
  daysFromCivil (Int.ofNat y) (Int.ofNat mo) (Int.ofNat d) * 86400
    + Int.ofNat h * 3600 + Int.ofNat mi * 60 + Int.ofNat s

/-- A wall-clock instant (the `now` argument threaded through the
recency filter), kept as civil fields so that its year is addressable. -/
structure DateTime where
  year : Nat
  month : Nat
  day : Nat
  hour : Nat
  minute : Nat
  second : Nat
deriving DecidableEq

/-- Timestamp of a `DateTime`. -/
def DateTime.ts (dt : DateTime) : Int :=
  toTimestamp dt.year dt.month dt.day dt.hour dt.minute dt.second

/-- The timestamp of `datetime.min`, that is 0001-01-01 00:00:00, the
sort key given to articles with unparseable dates. -/
def minTimestamp : Int :=
  toTimestamp 1 1 1 0 0 0

def isDigitChar (c : Char) : Bool :=
  '0' <= c && c <= '9'

def digitVal (c : Char) : Nat :=
  c.toNat - 48

/-- Numeric field of `strptime` matching one or two digits: a two-digit
read is taken when `valid2` admits its value (mirroring the two-digit
alternatives of the stdlib field regexes), else a one-digit read is taken
when `valid1` admits it.  For the four formats of `parse_date` the
separator following every such field can never be a digit, so this

deterministic reading agrees with the backtracking regex. -/
def parseNumField (valid2 valid1 : Nat → Bool) : List Char → Option (Nat × List Char)
  | [] => none
  | [c] =>
    if isDigitChar c && valid1 (digitVal c) then some (digitVal c, []) else none
  | c1 :: c2 :: rest =>
    if isDigitChar c1 && isDigitChar c2 && valid2 (10 * digitVal c1 + digitVal c2) then
      some (10 * digitVal c1 + digitVal c2, rest)
    else if isDigitChar c1 && valid1 (digitVal c1) then
      some (digitVal c1, c2 :: rest)
    else
      none

/-- Exactly four digits (the stdlib regex for a `strptime` year). -/
def parseYear4 : List Char → Option (Nat × List Char)
  | c1 :: c2 :: c3 :: c4 :: rest =>
    if isDigitChar c1 && isDigitChar c2 && isDigitChar c3 && isDigitChar c4 then
      some (digitVal c1 * 1000 + digitVal c2 * 100 + digitVal c3 * 10 + digitVal c4, rest)
    else
      none
  | _ => none

/-- One or more whitespace characters (a literal blank in a `strptime`
format string). -/
def parseWs1 : List Char → Option (List Char)
  | [] => none
  | c :: rest => if isSpaceChar c then some (rest.dropWhile isSpaceChar) else none

/-- A literal format character, case-insensitively (the stdlib compiles
the whole format regex with IGNORECASE). -/
def parseLit (c : Char) : List Char → Option (List Char)
  | [] => none
  | x :: rest => if x.toLower == c.toLower then some rest else none

/-- Abbreviated weekday names accepted by the `%a` directive; the parsed
weekday is discarded by `datetime.strptime`. -/
def parseWeekday (s : List Char) : Option (List Char) :=
  match s with
  | c1 :: c2 :: c3 :: rest =>
    if ["mon", "tue", "wed", "thu", "fri", "sat", "sun"].map String.toList
        |>.contains (pyLower [c1, c2, c3]) then
      some rest
    else
      none
  | _ => none

/-- Abbreviated month names accepted by the `%b` directive, mapped to
their month number. -/
def parseMonthName (s : List Char) : Option (Nat × List Char) :=
  match s with
  | c1 :: c2 :: c3 :: rest =>
    match (["jan", "feb", "mar", "apr", "may", "jun",
            "jul", "aug", "sep", "oct", "nov", "dec"].map String.toList
          |>.indexOf? (pyLower [c1, c2, c3])) with
    | some i => some (i + 1, rest)
    | none => none
  | _ => none

def dayValid2 (n : Nat) : Bool := 1 <= n && n <= 31

def dayValid1 (n : Nat) : Bool := 1 <= n && n <= 9

def monthValid2 (n : Nat) : Bool := 1 <= n && n <= 12

def hourValid2 (n : Nat) : Bool := n <= 23

def minuteValid2 (n : Nat) : Bool := n <= 59

def secondValid2 (n : Nat) : Bool := n <= 61

def anyDigit1 (_ : Nat) : Bool := true

/-- The `%H:%M:%S` tail shared by all four formats, requiring the end of
the input afterwards (`strptime` rejects unconverted trailing data). -/
def parseClock (s : List Char) : Option (Nat × Nat × Nat) := do
  let (h, s1) <- parseNumField hourValid2 anyDigit1 s
  let s2 <- parseLit ':' s1
  let (mi, s3) <- parseNumField minuteValid2 anyDigit1 s2
  let s4 <- parseLit ':' s3
  let (se, s5) <- parseNumField secondValid2 anyDigit1 s4
  if s5.isEmpty then some (h, mi, se) else none

/-- Candidate fields read by one `strptime` format before `datetime`
validation: year, month, day, hour, minute, second. -/
def parseFormatRfc822 (s : List Char) : Option (Nat × Nat × Nat × Nat × Nat × Nat) := do
  let s1 <- parseWeekday s
  let s2 <- parseLit ',' s1
  let s3 <- parseWs1 s2
  let (d, s4) <- parseNumField dayValid2 dayValid1 s3
  let s5 <- parseWs1 s4
  let (mo, s6) <- parseMonthName s5
  let s7 <- parseWs1 s6
  let (y, s8) <- parseYear4 s7
  let s9 <- parseWs1 s8
  let (h, mi, se) <- parseClock s9
  some (y, mo, d, h, mi, se)

def parseFormatIsoT (s : List Char) : Option (Nat × Nat × Nat × Nat × Nat × Nat) := do
  let (y, s1) <- parseYear4 s
  let s2 <- parseLit '-' s1
  let (mo, s3) <- parseNumField monthValid2 anyDigit1 s2
  let s4 <- parseLit '-' s3
  let (d, s5) <- parseNumField dayValid2 dayValid1 s4
  let s6 <- parseLit 'T' s5
  let (h, mi, se) <- parseClock s6
  some (y, mo, d, h, mi, se)

def parseFormatIsoSpace (s : List Char) : Option (Nat × Nat × Nat × Nat × Nat × Nat) := do
  let (y, s1) <- parseYear4 s
  let s2 <- parseLit '-' s1
  let (mo, s3) <- parseNumField monthValid2 anyDigit1 s2
  let s4 <- parseLit '-' s3
  let (d, s5) <- parseNumField dayValid2 dayValid1 s4
  let s6 <- parseWs1 s5
  let (h, mi, se) <- parseClock s6
  some (y, mo, d, h, mi, se)

def parseFormatDayMonth (s : List Char) : Option (Nat × Nat × Nat × Nat × Nat × Nat) := do
  let (d, s1) <- parseNumField dayValid2 dayValid1 s
  let s2 <- parseWs1 s1
  let (mo, s3) <- parseMonthName s2
  let s4 <- parseWs1 s3
  let (y, s5) <- parseYear4 s4
  let s6 <- parseWs1 s5
  let (h, mi, se) <- parseClock s6
  some (y, mo, d, h, mi, se)

def isLeapYear (y : Nat) : Bool :=
  y % 4 == 0 && (y % 100 != 0 || y % 400 == 0)

def daysInMonth (y mo : Nat) : Nat :=
  if mo == 2 then (if isLeapYear y then 29 else 28)
  else if mo == 4 || mo == 6 || mo == 9 || mo == 11 then 30
  else 31

/-- Validation performed by the `datetime` constructor inside
`datetime.strptime`; a field regex can admit values (month 0, day 31 of a
short month, leap seconds) that the constructor then rejects, which the
bare `except` of `parse_date` turns into trying the next format. -/
def mkDatetime (f : Nat × Nat × Nat × Nat × Nat × Nat) : Option Int :=
  match f with
  | (y, mo, d, h, mi, se) =>
    if 1 <= y && y <= 9999 && 1 <= mo && mo <= 12 && 1 <= d && d <= daysInMonth y mo
        && h <= 23 && mi <= 59 && se <= 59 then
      some (toTimestamp y mo d h mi se)
    else
      none

/-- The trailing timezone-abbreviation strip
`re.sub(r"\s+(GMT|UTC|EST|EDT|PST|PDT|CST|CDT)$", "", pub_clean)`. -/
def stripTzAbbrev (s : List Char) : List Char :=
  let r := s.reverse
  let tzs := (["GMT", "UTC", "EST", "EDT", "PST", "PDT", "CST", "CDT"].map
    (fun t => t.toList.reverse))
  if tzs.any (fun t => t.isPrefixOf r) then
    let r2 := r.drop 3
    match r2 with
    | c :: _ => if isSpaceChar c then (r2.dropWhile isSpaceChar).reverse else s
    | [] => s
  else
    s

/-- The trailing numeric-offset strip `re.sub(r"\s*[+-]\d{4}$", "", ...)`. -/
def stripUtcOffset (s : List Char) : List Char :=
  match s.reverse with
  | d1 :: d2 :: d3 :: d4 :: sign :: rest =>
    if isDigitChar d1 && isDigitChar d2 && isDigitChar d3 && isDigitChar d4
        && (sign == '+' || sign == '-') then
      (rest.dropWhile isSpaceChar).reverse
    else
      s
  | _ => s

/-- Embedding of `parse_date(pub)` from crawl.py: empty string is a
parse failure, otherwise strip, remove a trailing timezone abbreviation
and a trailing numeric offset, then try the four `strptime` formats in
order, a format counting only when the `datetime` constructor accepts
its fields. -/
def parse_date (pub : List Char) : Option Int :=
  if pub.isEmpty then
    none
  else
    let c := stripUtcOffset (stripTzAbbrev (pyStrip pub))
    ((parseFormatRfc822 c).bind mkDatetime)
      <|> ((parseFormatIsoT c).bind mkDatetime)
      <|> ((parseFormatIsoSpace c).bind mkDatetime)
      <|> ((parseFormatDayMonth c).bind mkDatetime)

/-- The Article record assembled by `crawl_news` (the `id` field, an MD5
fingerprint of the url computed by the stdlib, carries no decision logic
and is outside the claims, so it is not carried here). -/
structure Article where
  title : List Char
  url : List Char
  source : List Char
  published : List Char
  summary : List Char
deriving DecidableEq

/-- Embedding of `is_recent_enough(article, now)` from crawl.py: a
seven-day window when the case-folded title+summary contains "red
cross", otherwise a 48-hour window; on parse failure both branches of
the source fall back to testing the literal "2026" against the raw
published string. -/
def is_recent_enough (a : Article) (now : DateTime) : Bool :=
  let text := pyLower (a.title ++ ' ' :: a.summary)
  let is_red_cross := strIn red_cross_term text
  let cutoff : Int := now.ts - (if is_red_cross then 7 * 86400 else 48 * 3600)
  match parse_date a.published with
  | some t => cutoff <= t
  | none =>
    if is_red_cross then strIn ("2026".toList) a.published
    else strIn ("2026".toList) a.published

/-- The article of the C4 spec example: published
"Mon, 01 Jan 2024 08:00:00 GMT", no red-cross mention. -/
def c4Article : Article :=
  { title := "SC ice storm".toList
    url := []
    source := []
    published := "Mon, 01 Jan 2024 08:00:00 GMT".toList
    summary := [] }

/-- The run instant of the C4 spec example, 2026-01-27. -/
def c4Now : DateTime :=
  { year := 2026, month := 1, day := 27, hour := 0, minute := 0, second := 0 }

/-- The fallback token the spec claims for C5: the year token of the run
time `now` ("the current year/month token of now (the year of the
run)"); stated from the words of the spec for comparison with the
source, which tests a hard-coded literal instead. -/
def currentYearToken (now : DateTime) : List Char :=
  (Nat.repr now.year).toList

/-- An article whose published string defeats all four date formats but
contains the literal "2026". -/
def c5Article : Article :=
  { title := "SC ice storm".toList
    url := []
    source := []
    published := "storm of 2026".toList
    summary := [] }

/-- A run instant in a year other than 2026. -/
def c5Now : DateTime :=
  { year := 2027, month := 1, day := 1, hour := 0, minute := 0, second := 0 }

/-- An article mentioning the red cross, with an unparseable date
carrying no "2026" token. -/
def c10RedCrossArticle : Article :=
  { title := "Red Cross shelter news".toList
    url := []
    source := []
    published := "updated recently".toList
    summary := [] }

/-- The same published string on an article without any red-cross
mention. -/
def c10PlainArticle : Article :=
  { title := "Storm update".toList
    url := []
    source := []
    published := "updated recently".toList
    summary := [] }

/-- An article with an empty published string. -/
def c10EmptyArticle : Article :=
  { title := "Red Cross shelter news".toList
    url := []
    source := []
    published := []
    summary := [] }

/-- The run instant used by the C10 witness. -/
def c10Now : DateTime :=
  { year := 2026, month := 1, day := 27, hour := 0, minute := 0, second := 0 }

/-- Index of the first occurrence of `pat` in `s` (the scan position of
the stdlib regex engine for a literal pattern). -/
def findSub (pat : List Char) : List Char → Option Nat
  | [] => if pat.isEmpty then some 0 else none
  | c :: rest =>
    if pat.isPrefixOf (c :: rest) then some 0
    else (findSub pat rest).map (fun n => n + 1)

/-- Fuel-indexed worker for `replaceAllSub`; the fuel, initialised to the
length of the text, dominates the number of replacement steps because
every step consumes at least one character. -/
def replaceAllGo (pat rep : List Char) : Nat → List Char → List Char
  | 0, t => t
  | fuel + 1, t =>
    match findSub pat t with
    | none => t
    | some i => t.take i ++ rep ++ replaceAllGo pat rep fuel (t.drop (i + pat.length))

/-- Embedding of Python `str.replace(pat, rep)` (all non-overlapping
occurrences, left to right). -/
def replaceAllSub (pat rep s : List Char) : List Char :=
  replaceAllGo pat rep s.length s

/-- The HTML entities decoded by the model of `html.unescape`; the feeds
handled by the crawler use these named forms (the stdlib also accepts
numeric and semicolonless forms, which no claim depends on). -/
def entityTable : List (List Char × Char) :=
  [("&amp;".toList, '&'), ("&lt;".toList, '<'), ("&gt;".toList, '>'),
   ("&quot;".toList, '"'), ("&apos;".toList, '\''), ("&#39;".toList, '\''),
   ("&nbsp;".toList, '\xa0')]

/-- Fuel-indexed single pass of entity decoding. -/
def unescapeGo : Nat → List Char → List Char
  | 0, t => t
  | _ + 1, [] => []
  | fuel + 1, c :: rest =>
    match entityTable.find? (fun e => e.1.isPrefixOf (c :: rest)) with
    | some e => e.2 :: unescapeGo fuel ((c :: rest).drop e.1.length)
    | none => c :: unescapeGo fuel rest

/-- Model of `html.unescape` over the entity table above. -/
def html_unescape (s : List Char) : List Char :=
  unescapeGo s.length s

/-- Fuel-indexed worker unwrapping every CDATA section, keeping its
content (the `re.sub` on the CDATA pattern with replacement `\1`). -/
def cdataGo : Nat → List Char → List Char
  | 0, t => t
  | fuel + 1, t =>
    match findSub ("<![CDATA[".toList) t with
    | none => t
    | some i =>
      let after := t.drop (i + 9)
      match findSub ("]]>".toList) after with
      | none => t
      | some j => t.take i ++ after.take j ++ cdataGo fuel (after.drop (j + 3))

def cdataUnwrap (s : List Char) : List Char :=
  cdataGo s.length s

/-- Fuel-indexed worker replacing every maximal `<...>` group holding at
least one character with a blank (the `re.sub` on the tag pattern); a
bare pair of angle brackets with nothing between them does not match the
pattern and is kept. -/
def tagGo : Nat → List Char → List Char
  | 0, t => t
  | fuel + 1, t =>
    match findSub ['<'] t with
    | none => t
    | some i =>
      let after := t.drop (i + 1)
      match findSub ['>'] after with
      | none => t
      | some j =>
        if 1 <= j then t.take i ++ ' ' :: tagGo fuel (after.drop (j + 1))
        else t.take (i + 1) ++ tagGo fuel after

def tagSub (s : List Char) : List Char :=
  tagGo s.length s

/-- Fuel-indexed collapse of every whitespace run to a single blank. -/
def wsGo : Nat → List Char → List Char
  | 0, t => t
  | _ + 1, [] => []
  | fuel + 1, c :: rest =>
    if isSpaceChar c then ' ' :: wsGo fuel (rest.dropWhile isSpaceChar)
    else c :: wsGo fuel rest

def collapseWs (s : List Char) : List Char :=
  wsGo s.length s

/-- Embedding of `clean_html(text)` from crawl.py: non-breaking-space
entity to blank, entity decoding, non-breaking-space character to blank,
the entity again, CDATA unwrapping, tag removal, then whitespace
collapse and strip, in the order of the source. -/
def clean_html (s : List Char) : List Char :=
  if s.isEmpty then []
  else
    let t1 := replaceAllSub ("&nbsp;".toList) [' '] s
    let t2 := html_unescape t1
    let t3 := replaceAllSub ['\xa0'] [' '] t2
    let t4 := replaceAllSub ("&nbsp;".toList) [' '] t3
    let t5 := cdataUnwrap t4
    let t6 := tagSub t5
    pyStrip (collapseWs t6)

/-- One candidate entry extracted from a feed by `parse_rss_simple`. -/
structure Item where
  title : List Char
  link : List Char
  published : List Char
  description : List Char
deriving DecidableEq

/-- Fuel-indexed `findall` for a non-greedy
`opening (.*?) closing` pattern: leftmost opening marker, then the
nearest closing marker, repeated after the match. -/
def findallBlocksGo (opening closing : List Char) : Nat → List Char → List (List Char)
  | 0, _ => []
  | fuel + 1, t =>
    match findSub opening t with
    | none => []
    | some i =>
      let after := t.drop (i + opening.length)
      match findSub closing after with
      | none => []
      | some j =>
        after.take j :: findallBlocksGo opening closing fuel (after.drop (j + closing.length))

def findallBlocks (opening closing s : List Char) : List (List Char) :=
  findallBlocksGo opening closing s.length s

/-- Search for `opening (.*?) closing` with literal markers (the
`pubDate`, `published` and `description` patterns of the source). -/
def searchBetween (opening closing s : List Char) : Option (List Char) :=
  (findSub opening s).bind (fun i =>
    let after := s.drop (i + opening.length)
    (findSub closing after).map (fun q => after.take q))

/-- Search for a `tag[^>]*>(.*?)closing` pattern: the leftmost opening
tag prefix, the nearest closing angle bracket after it, then the nearest
closing marker (the `title` and first `link` patterns of the source);
the stdlib regex succeeds exactly at the leftmost tag prefix whenever it
succeeds at all, which this direct search mirrors. -/
def searchTagged (opening closing s : List Char) : Option (List Char) :=
  (findSub opening s).bind (fun i =>
    let after := s.drop (i + opening.length)
    (findSub ['>'] after).bind (fun p =>
      let body := after.drop (p + 1)
      (findSub closing body).map (fun q => body.take q)))

/-- Fuel-indexed scan over the region following one `<link` marker for
an `href="..."` attribute occurring before any closing angle bracket,
with a nonempty quoted value, mirroring the backtracking of
`<link[^>]*href="([^"]+)"`. -/
def hrefGo : Nat → List Char → Option (List Char)
  | 0, _ => none
  | fuel + 1, t =>
    match findSub ("href=\"".toList) t with
    | none => none
    | some k =>
      if (t.take k).contains '>' then none
      else
        let rest := t.drop (k + 6)
        match findSub ['"'] rest with
        | none => none
        | some 0 => hrefGo fuel (t.drop (k + 1))
        | some q => some (rest.take q)

/-- Fuel-indexed scan over `<link` markers for the Atom href variant. -/
def linkHrefGo : Nat → List Char → Option (List Char)
  | 0, _ => none
  | fuel + 1, t =>
    match findSub ("<link".toList) t with
    | none => none
    | some i =>
      let after := t.drop (i + 5)
      match hrefGo after.length after with
      | some cap => some cap
      | none => linkHrefGo fuel (t.drop (i + 1))

def linkHref (s : List Char) : Option (List Char) :=
  linkHrefGo s.length s

/-- The per-block extraction of `parse_rss_simple`: title and
description sanitised by `clean_html`, the link stripped then
CDATA-unwrapped, the date string stripped; a block missing title or link
after sanitisation yields nothing. -/
def mkFeedItem (block : List Char) : Option Item :=
  let title :=
    match searchTagged ("<title".toList) ("</title>".toList) block with
    | some g => clean_html g
    | none => []
  let link :=
    match (searchTagged ("<link".toList) ("</link>".toList) block) <|> (linkHref block) with
    | some g => cdataUnwrap (pyStrip g)
    | none => []
  let pub :=
    match (searchBetween ("<pubDate>".toList) ("</pubDate>".toList) block)
        <|> (searchBetween ("<published>".toList) ("</published>".toList) block) with
    | some g => pyStrip g
    | none => []
  let desc :=
    match searchBetween ("<description>".toList) ("</description>".toList) block with
    | some g => (clean_html g).take 300
    | none => []
  if !title.isEmpty && !link.isEmpty then
    some { title := title, link := link, published := pub, description := desc }
  else
    none

/-- Embedding of `parse_rss_simple(xml_content)` from crawl.py: RSS
`item` blocks, else Atom `entry` blocks, at most 15 of them, each
extracted by `mkFeedItem` and dropped when it yields nothing. -/
def parse_rss_simple (xml : Option (List Char)) : List Item :=
  match xml with
  | none => []
  | some s =>
    if s.isEmpty then []
    else
      let itemBlocks := findallBlocks ("<item>".toList) ("</item>".toList) s
      let blocks :=
        if itemBlocks.isEmpty then findallBlocks ("<entry>".toList) ("</entry>".toList) s
        else itemBlocks
      (blocks.take 15).filterMap mkFeedItem

/-- A two-item feed: the first item is complete, the second has an empty
title and must be dropped. -/
def c7Feed : List Char :=
  ("<item><title>A &amp; B</title><link>http://x</link>"
    ++ "<description>short desc</description></item>"
    ++ "<item><title></title><link>http://y</link></item>").toList

/-- The single entry the parser extracts from `c7Feed`. -/
def c7Item : Item :=
  { title := "A & B".toList
    link := "http://x".toList
    published := []
    description := "short desc".toList }

/-- The outcome of the network interaction performed inside the `try`
block of `fetch_url` (the `urlopen`, `read` and `decode` calls): either
a decoded text, or any of the transport and decoding exceptions, all of
which the bare `except` collapses. -/
inductive FetchOutcome where
  | success : List Char → FetchOutcome
  | failure : FetchOutcome
deriving DecidableEq

/-- The Python exception escaping `fetch_url` when `Request` rejects the
URL. -/
inductive PyErr where
  | valueError : PyErr
deriving DecidableEq

/-- Whether `urllib.request.Request(url)` accepts the URL string: the
stdlib splits a scheme with the pattern `([^/:]+):` anchored at the
start and raises `ValueError` when it is absent; modelled from the
constructor called on line 53 of crawl.py, which sits before the `try`
block. -/
def url_has_scheme (url : List Char) : Bool :=
  let pre := url.takeWhile (fun c => !(c == ':') && !(c == '/'))
  match url.drop pre.length with
  | c :: _ => c == ':' && decide (0 < pre.length)
  | [] => false

/-- Embedding of `fetch_url(url)` from crawl.py: the `Request`
constructor runs outside the `try` block and propagates a `ValueError`
for a URL without a scheme; every outcome of the guarded network call is
absorbed, failures becoming `None`. -/
def fetch_url (url : List Char) (outcome : FetchOutcome) : Except PyErr (Option (List Char)) :=
  if url_has_scheme url then
    Except.ok (match outcome with
      | FetchOutcome.success t => some t
      | FetchOutcome.failure => none)
  else
    Except.error PyErr.valueError

/-- Embedding of `normalize_title(title)` from crawl.py: case-fold, then
strip every character that is not an ASCII lowercase letter or digit. -/
def normalize_title (title : List Char) : List Char :=
  (pyLower title).filter (fun c => ('a' <= c && c <= 'z') || ('0' <= c && c <= '9'))

/-- The mutable state of one `crawl_news` run: the accepted articles and
the two dedup sets (embedded as lists used only through membership). -/
structure CrawlState where
  articles : List Article
  seen_urls : List (List Char)
  seen_titles : List (List Char)

/-- The Article record built from an accepted item inside the loop of
`crawl_news` (link becomes url, description becomes summary). -/
def item_to_article (source : List Char) (it : Item) : Article :=
  { title := it.title
    url := it.link
    source := source
    published := it.published
    summary := it.description }

/-- The body of the per-item loop of `crawl_news`: skip when the url or
the normalized title was seen, skip when irrelevant, else record the
article and extend both dedup sets. -/
def process_item (source : List Char) (st : CrawlState) (it : Item) : CrawlState :=
  let norm := normalize_title it.title
  if decide (it.link ∈ st.seen_urls) || decide (norm ∈ st.seen_titles) then
    st
  else if !(is_relevant it.title it.description) then
    st
  else
    { articles := st.articles ++ [item_to_article source it]
      seen_urls := it.link :: st.seen_urls
      seen_titles := norm :: st.seen_titles }

/-- One source of the run: its label paired with the text the fetch
returned (the network being input to the embedding); both loops of
`crawl_news` — Google News query feeds, labelled "Google News", and the
local outlet feeds — are this same fold over the parsed items. -/
def process_source (st : CrawlState) (src : List Char × Option (List Char)) : CrawlState :=
  (parse_rss_simple src.2).foldl (process_item src.1) st

/-- The collection phase of `crawl_news` over all sources. -/
def crawl_collect (sources : List (List Char × Option (List Char))) : CrawlState :=
  sources.foldl process_source { articles := [], seen_urls := [], seen_titles := [] }

/-- The sort key of `crawl_news`: the parsed timestamp, or the timestamp
of `datetime.min` when parsing fails. -/
def sortKeyTs (a : Article) : Int :=
  match parse_date a.published with
  | some t => t
  | none => minTimestamp

/-- The descending-key order of the final sort: `a` may come before `b`
when the key of `b` is at most the key of `a`. -/
def sortGE (a b : Article) : Prop :=
  sortKeyTs b <= sortKeyTs a

instance : DecidableRel sortGE :=
  fun _ _ => Int.decLe _ _

instance : IsTotal Article sortGE :=
  ⟨fun a b => Int.le_total (sortKeyTs b) (sortKeyTs a)⟩

instance : IsTrans Article sortGE :=
  ⟨fun _ _ _ hab hbc => le_trans hbc hab⟩

/-- The final phase of `crawl_news`: recency filter, then a stable sort
descending by the sort key (Python `list.sort` with `reverse=True`); a
stable sort is extensionally unique, so the structurally recursive
insertion sort embeds it exactly. -/
def crawl_finalize (articles : List Article) (now : DateTime) : List Article :=
  List.insertionSort sortGE (articles.filter (fun a => is_recent_enough a now))

/-- The article list returned by `crawl_news`, given the fetched text of
every source and the run instant. -/
def crawl_news_articles (sources : List (List Char × Option (List Char)))
    (now : DateTime) : List Article :=
  crawl_finalize (crawl_collect sources).articles now

/-- Distinct identity of two accepted articles: different urls and
different normalized titles. -/
def distinctIdent (a b : Article) : Prop :=
  a.url ≠ b.url ∧ normalize_title a.title ≠ normalize_title b.title

/-- The induction invariant of the collection loop: the accepted
articles are pairwise distinct and their identities are recorded in the
dedup sets. -/
def StateInv (st : CrawlState) : Prop :=
  List.Pairwise distinctIdent st.articles
  ∧ ∀ a, a ∈ st.articles →
      a.url ∈ st.seen_urls ∧ normalize_title a.title ∈ st.seen_titles

/-- The one-article state used by the C8 witness. -/
def c8State : CrawlState :=
  { articles := [item_to_article ("Google News".toList)
      { title := "Columbia SC ice storm".toList
        link := "http://x".toList
        published := []
        description := [] }]
    seen_urls := ["http://x".toList]
    seen_titles := [normalize_title ("Columbia SC ice storm".toList)] }

/-- An incoming item reusing the url already accepted in `c8State` under
a different title. -/
def c8DupItem : Item :=
  { title := "Columbia ice storm again".toList
    link := "http://x".toList
    published := []
    description := [] }

/-- The feed of the C6 witness: three parseable timestamps in scrambled
order and one unparseable date. -/
def c6Feed : List Char :=
  ("<item><title>Columbia SC ice storm gamma</title>"
      ++ "<link>http://g</link><pubDate>2026-01-27 06:00:00</pubDate></item>"
    ++ "<item><title>Columbia SC ice storm alpha</title>"
      ++ "<link>http://a</link><pubDate>2026-01-25 18:00:00</pubDate></item>"
    ++ "<item><title>Columbia SC ice storm omega</title>"
      ++ "<link>http://o</link><pubDate>coming in 2026</pubDate></item>"
    ++ "<item><title>Columbia SC ice storm beta</title>"
      ++ "<link>http://b</link><pubDate>2026-01-26 12:00:00</pubDate></item>").toList

/-- The sources of the C6 witness run. -/
def c6Sources : List (List Char × Option (List Char)) :=
  [("WLTX Columbia".toList, some c6Feed)]

/-- The run instant of the C6 witness, 2026-01-27 12:00:00. -/
def c6Now : DateTime :=
  { year := 2026, month := 1, day := 27, hour := 12, minute := 0, second := 0 }

/-- The article of `c6Feed` with the greatest timestamp. -/
def c6Gamma : Article :=
  { title := "Columbia SC ice storm gamma".toList
    url := "http://g".toList
    source := "WLTX Columbia".toList
    published := "2026-01-27 06:00:00".toList
    summary := [] }

/-- The article of `c6Feed` with the middle timestamp. -/
def c6Beta : Article :=
  { title := "Columbia SC ice storm beta".toList
    url := "http://b".toList
    source := "WLTX Columbia".toList
    published := "2026-01-26 12:00:00".toList
    summary := [] }

/-- The article of `c6Feed` with the least parseable timestamp. -/
def c6Alpha : Article :=
  { title := "Columbia SC ice storm alpha".toList
    url := "http://a".toList
    source := "WLTX Columbia".toList
    published := "2026-01-25 18:00:00".toList
    summary := [] }

/-- The article of `c6Feed` with the unparseable date, kept by the
fallback because its date string contains "2026". -/
def c6Omega : Article :=
  { title := "Columbia SC ice storm omega".toList
    url := "http://o".toList
    source := "WLTX Columbia".toList
    published := "coming in 2026".toList
    summary := [] }

theorem strIn_iff_parts (pat text : List Char) :
    strIn pat text = true ↔ ∃ pre post, text = pre ++ pat ++ post := by
  induction text with
  | nil =>
    simp only [strIn, List.isEmpty_iff]
    constructor
    · rintro rfl; exact ⟨[], [], rfl⟩
    · rintro ⟨pre, post, h⟩
      have h2 : pre ++ pat ++ post = [] := h.symm
      have h3 := List.append_eq_nil.mp h2
      exact (List.append_eq_nil.mp h3.1).2
  | cons c rest ih =>
    simp only [strIn, Bool.or_eq_true, List.isPrefixOf_iff_prefix, ih]
    constructor
    · rintro (⟨t, ht⟩ | ⟨pre, post, h⟩)
      · exact ⟨[], t, by simp [ht]⟩
      · exact ⟨c :: pre, post, by simp [h]⟩
    · rintro ⟨pre, post, h⟩
      match pre with
      | [] =>
        left
        exact ⟨post, by simpa using h.symm⟩
      | p :: ps =>
        right
        refine ⟨ps, post, ?_⟩
        have h2 := h
        simp at h2
        simp [h2.2, List.append_assoc]

/-- If a concatenation occurs as a substring, so does its right part. -/
theorem strIn_of_append (a b text : List Char)
    (h : strIn (a ++ b) text = true) : strIn b text = true := by
  rw [strIn_iff_parts] at h ⊢
  obtain ⟨pre, post, hp⟩ := h
  exact ⟨pre ++ a, post, by simp [hp]⟩

/-- C1: exclusion precedence in the relevance classifier.  Whenever the
case-folded concatenation of title and description contains a term of the
fixed exclusion list, `is_relevant` returns false, regardless of the
red-cross override, the location gate or the topic gate. -/
theorem exclusion_beats_everything (title description : List Char)
    (h : ∃ t, t ∈ exclude_terms ∧ strIn t (mkText title description) = true) :
    is_relevant title description = false := by
  have hany : exclude_terms.any (fun t => strIn t (mkText title description)) = true :=
    List.any_eq_true.mpr h
  simp [is_relevant, hany]

/-- C1 witness: the text of the spec example contains the exclusion term
"arrest" and is therefore rejected despite the red-cross phrase, the
location tokens and the topic token it also contains. -/
theorem exclusion_beats_everything_witness :
    (∃ t, t ∈ exclude_terms ∧
      strIn t (mkText "Red Cross volunteer arrested in Columbia SC ice storm".toList []) = true)
    ∧ is_relevant "Red Cross volunteer arrested in Columbia SC ice storm".toList [] = false := by
  have h : ∃ t, t ∈ exclude_terms ∧
      strIn t (mkText "Red Cross volunteer arrested in Columbia SC ice storm".toList []) = true :=
    ⟨"arrest".toList, by decide, by decide⟩
  exact ⟨h, exclusion_beats_everything _ _ h⟩

/-- C2: red-cross override.  If no exclusion term occurs, the phrase
"red cross" occurs, and some token of the South-Carolina location list
occurs, then `is_relevant` returns true, topic tokens or not. -/
theorem override_accepts (title description : List Char)
    (hex : ∀ t, t ∈ exclude_terms → strIn t (mkText title description) = false)
    (hrc : strIn red_cross_term (mkText title description) = true)
    (hloc : ∃ t, t ∈ location_terms ∧ strIn t (mkText title description) = true) :
    is_relevant title description = true := by
  have hexany : exclude_terms.any (fun t => strIn t (mkText title description)) = false :=
    List.any_eq_false.mpr (fun t ht => by simp [hex t ht])
  cases hov : override_locations.any (fun t => strIn t (mkText title description)) with
  | true =>
    simp [is_relevant, hexany, hrc, hov]
  | false =>
    have hcar : strIn ("carolina".toList) (mkText title description) = false := by
      have h2 := List.any_eq_false.mp hov ("carolina".toList) (by decide)
      simpa using h2
    have hnc : strIn north_carolina_term (mkText title description) = false := by
      cases hh : strIn north_carolina_term (mkText title description)
      · rfl
      · exfalso
        have hsplit : north_carolina_term
            = ("north ".toList) ++ ("carolina".toList) := by decide
        have h3 := strIn_of_append ("north ".toList) ("carolina".toList) _ (hsplit ▸ hh)
        rw [h3] at hcar
        exact Bool.true_eq_false.mp hcar
    have hlocany : location_terms.any (fun t => strIn t (mkText title description)) = true :=
      List.any_eq_true.mpr hloc
    have hweather : weather_terms.any (fun t => strIn t (mkText title description)) = true :=
      List.any_eq_true.mpr ⟨red_cross_term, by decide, hrc⟩
    simp [is_relevant, hexany, hrc, hov, hnc, hlocany, hweather]

/-- C2 witness: the spec example "Red Cross opens new office, Greenville
SC" (empty description) satisfies the three hypotheses — no exclusion
term, the phrase "red cross", and the location token " sc " — and is
accepted even though it contains no weather topic other than the
red-cross phrase itself. -/
theorem override_accepts_witness :
    strIn red_cross_term (mkText "Red Cross opens new office, Greenville SC".toList []) = true
    ∧ is_relevant "Red Cross opens new office, Greenville SC".toList [] = true := by
  refine ⟨by decide, override_accepts _ _ (fun t ht => ?_) (by decide)
    ⟨" sc ".toList, by decide, by decide⟩⟩
  revert t ht
  decide

/-- C3: North-Carolina exclusion.  If no exclusion term occurs, the
red-cross override does not fire, the text contains "north carolina" and
does not contain "south carolina", then `is_relevant` returns false. -/
theorem nc_only_rejects (title description : List Char)
    (hex : ∀ t, t ∈ exclude_terms → strIn t (mkText title description) = false)
    (hov : (strIn red_cross_term (mkText title description)
      && override_locations.any (fun t => strIn t (mkText title description))) = false)
    (hnc : strIn north_carolina_term (mkText title description) = true)
    (hsc : strIn south_carolina_term (mkText title description) = false) :
    is_relevant title description = false := by
  have hexany : exclude_terms.any (fun t => strIn t (mkText title description)) = false :=
    List.any_eq_false.mpr (fun t ht => by simp [hex t ht])
  simp [is_relevant, hexany, hov, hnc, hsc]

/-- C3 witness: "North Carolina ice storm closes schools" satisfies the
hypotheses and is rejected, while "North and South Carolina hit by ice
storm" is not caught by the rule and passes the location and topic
gates. -/
theorem nc_only_rejects_witness :
    is_relevant "North Carolina ice storm closes schools".toList [] = false
    ∧ is_relevant "North and South Carolina hit by ice storm".toList [] = true := by
  refine ⟨nc_only_rejects _ _ (fun t ht => ?_) (by decide) (by decide) (by decide), by decide⟩
  revert t ht
  decide

/-- C4: window selection on a parseable date.  When the published string
parses (after the timezone strips) to timestamp `t`, the recency verdict
is true exactly when `t` is at or after `now` minus the window, the
window being 7 days when the case-folded title+summary contains
"red cross" and 48 hours otherwise. -/
theorem recency_window_iff (a : Article) (now : DateTime) (t : Int)
    (h : parse_date a.published = some t) :
    (is_recent_enough a now = true ↔
      now.ts - (if strIn red_cross_term (pyLower (a.title ++ ' ' :: a.summary))
        then 7 * 86400 else 48 * 3600) <= t) := by
  simp [is_recent_enough, h]

/-- C4 witness: the example article parses to the timestamp of
2024-01-01 08:00:00, which is outside the 48-hour window of a 2026-01-27
run, so the article is excluded. -/
theorem recency_window_iff_witness :
    parse_date c4Article.published = some 1704096000
    ∧ is_recent_enough c4Article c4Now = false := by
  have hp : parse_date c4Article.published = some 1704096000 := by decide
  refine ⟨hp, ?_⟩
  have hiff := recency_window_iff c4Article c4Now 1704096000 hp
  cases hb : is_recent_enough c4Article c4Now
  · rfl
  · exact absurd (hiff.mp hb) (by decide)

/-- C5 counterexample: for a 2027 run the claim predicts the fallback to
test the token "2027", but the source tests the hard-coded literal
"2026": on this article the verdict is true while the published string
does not contain the year token of `now`, refuting the claimed
equivalence. -/
theorem recency_fallback_counterexample :
    parse_date c5Article.published = none
    ∧ is_recent_enough c5Article c5Now = true
    ∧ strIn (currentYearToken c5Now) c5Article.published = false := by
  decide

/-- C5 as amended: when every format fails, the verdict is true exactly
when the raw published string contains the hard-coded literal "2026"
(the year of the covered storm), independent of `now`; the article is
not discarded outright. -/
theorem recency_fallback_iff (a : Article) (now : DateTime)
    (h : parse_date a.published = none) :
    (is_recent_enough a now = true ↔ strIn ("2026".toList) a.published = true) := by
  simp [is_recent_enough, h]

/-- C5 witness: the unparseable example article is kept by the fallback
because its published string contains "2026". -/
theorem recency_fallback_iff_witness :
    parse_date c5Article.published = none
    ∧ is_recent_enough c5Article c5Now = true := by
  have h : parse_date c5Article.published = none := by decide
  exact ⟨h, (recency_fallback_iff c5Article c5Now h).mpr (by decide)⟩

/-- C10: under the fallback the red-cross status is irrelevant — two
articles with the same unparseable published string get the same
verdict whatever their titles and summaries — and an article with an
empty published string is always excluded. -/
theorem fallback_ignores_red_cross :
    (∀ (a1 a2 : Article) (now : DateTime), a1.published = a2.published →
      parse_date a1.published = none →
      is_recent_enough a1 now = is_recent_enough a2 now)
    ∧ (∀ (a : Article) (now : DateTime), a.published = [] →
      is_recent_enough a now = false) := by
  constructor
  · intro a1 a2 now hpub hparse
    have hparse2 : parse_date a2.published = none := hpub ▸ hparse
    simp [is_recent_enough, hparse, hparse2, hpub]
  · intro a now hpub
    have h0 : parse_date ([] : List Char) = none := by decide
    simp [is_recent_enough, hpub, h0, strIn]

/-- C10 witness: the red-cross article and the plain article with the
same unparseable date get the same verdict, and the empty-date article
is excluded. -/
theorem fallback_ignores_red_cross_witness :
    is_recent_enough c10RedCrossArticle c10Now = is_recent_enough c10PlainArticle c10Now
    ∧ is_recent_enough c10EmptyArticle c10Now = false := by
  exact ⟨fallback_ignores_red_cross.1 c10RedCrossArticle c10PlainArticle c10Now rfl (by decide),
    fallback_ignores_red_cross.2 c10EmptyArticle c10Now rfl⟩

/-- The description component of an extracted block never exceeds 300
characters, in both the present and the absent case. -/
theorem desc_component_le (o : Option (List Char)) :
    (match o with
      | some g => (clean_html g).take 300
      | none => ([] : List Char)).length <= 300 := by
  cases o with
  | none => simp
  | some g => simp

/-- A block accepted by `mkFeedItem` has a nonempty sanitised title, a
nonempty link, and a description of at most 300 characters. -/
theorem mkFeedItem_spec (b : List Char) (it : Item) (h : mkFeedItem b = some it) :
    it.title ≠ [] ∧ it.link ≠ [] ∧ it.description.length <= 300 := by
  simp only [mkFeedItem] at h
  split at h
  case isTrue hcond =>
    injection h with h2
    subst h2
    simp only [Bool.and_eq_true, Bool.not_eq_true'] at hcond
    refine ⟨?_, ?_, desc_component_le _⟩
    · simpa [List.isEmpty_iff] using hcond.1
    · simpa [List.isEmpty_iff] using hcond.2
  case isFalse =>
    exact absurd h (by simp)

/-- C7: output postcondition of the feed parser.  For every input,
including the absent one, the output holds at most 15 entries, and every
entry has a nonempty sanitised title, a nonempty link and a description
of at most 300 characters; blocks missing title or link yield no
entry. -/
theorem parser_output_postcondition (xml : Option (List Char)) :
    (parse_rss_simple xml).length <= 15
    ∧ ∀ it, it ∈ parse_rss_simple xml →
      it.title ≠ [] ∧ it.link ≠ [] ∧ it.description.length <= 300 := by
  constructor
  · match xml with
    | none => simp [parse_rss_simple]
    | some s =>
      simp only [parse_rss_simple]
      split
      · simp
      · refine Nat.le_trans (List.length_filterMap_le _ _) ?_
        exact Nat.le_trans (List.length_take_le _ _) (Nat.le_refl 15)
  · intro it hmem
    match xml with
    | none => simp [parse_rss_simple] at hmem
    | some s =>
      simp only [parse_rss_simple] at hmem
      split at hmem
      · simp at hmem
      · obtain ⟨b, _, hb⟩ := List.mem_filterMap.mp hmem
        exact mkFeedItem_spec b it hb

set_option maxRecDepth 100000 in
/-- C7 witness: on the concrete feed the parser returns exactly the one
complete entry — the empty-titled block is dropped — and that entry has
the claimed properties. -/
theorem parser_output_postcondition_witness :
    parse_rss_simple (some c7Feed) = [c7Item]
    ∧ (parse_rss_simple (some c7Feed)).length <= 15
    ∧ (c7Item.title ≠ [] ∧ c7Item.link ≠ [] ∧ c7Item.description.length <= 300) := by
  refine ⟨by decide, (parser_output_postcondition (some c7Feed)).1,
    (parser_output_postcondition (some c7Feed)).2 c7Item ?_⟩
  have h : parse_rss_simple (some c7Feed) = [c7Item] := by decide
  rw [h]
  exact List.mem_singleton.mpr rfl

/-- C9 counterexample: on a URL string with no scheme, `fetch_url`
raises a `ValueError` from the `Request` constructor instead of
returning text or the explicit unavailable result, because that
constructor runs before the `try` block. -/
theorem fetch_url_counterexample :
    fetch_url ("not a url".toList) FetchOutcome.failure = Except.error PyErr.valueError := by
  rfl

/-- C9 as amended: for every URL string carrying a scheme prefix — in
particular every URL the crawler builds, all of which start with
`https:` — `fetch_url` absorbs every outcome of the network call,
returning the decoded text on success and the explicit unavailable
result otherwise, and never propagates an exception. -/
theorem fetch_url_absorbs (url : List Char) (outcome : FetchOutcome)
    (h : url_has_scheme url = true) :
    fetch_url url outcome = Except.ok (match outcome with
      | FetchOutcome.success t => some t
      | FetchOutcome.failure => none) := by
  simp [fetch_url, h]

/-- C9 witness: a Google News query URL has a scheme, so a transport
failure on it is absorbed into the unavailable result. -/
theorem fetch_url_absorbs_witness :
    url_has_scheme ("https://news.google.com/rss/search?q=x".toList) = true
    ∧ fetch_url ("https://news.google.com/rss/search?q=x".toList) FetchOutcome.failure
      = Except.ok none := by
  refine ⟨by decide, ?_⟩
  exact fetch_url_absorbs _ FetchOutcome.failure (by decide)

/-- Equation: a seen url or seen normalized title leaves the state
unchanged. -/
theorem process_item_seen (source : List Char) (st : CrawlState) (it : Item)
    (h : (decide (it.link ∈ st.seen_urls)
      || decide (normalize_title it.title ∈ st.seen_titles)) = true) :
    process_item source st it = st := by
  simp only [process_item]
  rw [h]
  simp

/-- Equation: an unseen but irrelevant item leaves the state
unchanged. -/
theorem process_item_irrelevant (source : List Char) (st : CrawlState) (it : Item)
    (h1 : (decide (it.link ∈ st.seen_urls)
      || decide (normalize_title it.title ∈ st.seen_titles)) = false)
    (h2 : is_relevant it.title it.description = false) :
    process_item source st it = st := by
  simp only [process_item]
  rw [h1, h2]
  simp

/-- Equation: an unseen relevant item is appended and both dedup sets
are extended. -/
theorem process_item_accept (source : List Char) (st : CrawlState) (it : Item)
    (h1 : (decide (it.link ∈ st.seen_urls)
      || decide (normalize_title it.title ∈ st.seen_titles)) = false)
    (h2 : is_relevant it.title it.description = true) :
    process_item source st it =
      { articles := st.articles ++ [item_to_article source it]
        seen_urls := it.link :: st.seen_urls
        seen_titles := normalize_title it.title :: st.seen_titles } := by
  simp only [process_item]
  rw [h1, h2]
  simp

theorem process_item_inv (source : List Char) (st : CrawlState) (it : Item)
    (h : StateInv st) : StateInv (process_item source st it) := by
  cases h1 : (decide (it.link ∈ st.seen_urls)
      || decide (normalize_title it.title ∈ st.seen_titles)) with
  | true =>
    rw [process_item_seen source st it h1]
    exact h
  | false =>
    cases h2 : is_relevant it.title it.description with
    | false =>
      rw [process_item_irrelevant source st it h1 h2]
      exact h
    | true =>
      rw [process_item_accept source st it h1 h2]
      have hseen := h1
      simp only [Bool.or_eq_false_iff, decide_eq_false_iff_not] at hseen
      obtain ⟨hurl, htitle⟩ := hseen
      constructor
      · rw [List.pairwise_append]
        refine ⟨h.1, List.pairwise_singleton _ _, ?_⟩
        intro a ha b hb
        have hb2 : b = item_to_article source it := by simpa using hb
        subst hb2
        have hmem := h.2 a ha
        constructor
        · intro hc
          have hc2 : a.url = it.link := hc
          exact hurl (hc2 ▸ hmem.1)
        · intro hc
          have hc2 : normalize_title a.title = normalize_title it.title := hc
          exact htitle (hc2 ▸ hmem.2)
      · intro a ha
        rcases List.mem_append.mp ha with hold | hnew
        · have hmem := h.2 a hold
          exact ⟨List.mem_cons_of_mem _ hmem.1, List.mem_cons_of_mem _ hmem.2⟩
        · have ha2 : a = item_to_article source it := by simpa using hnew
          subst ha2
          exact ⟨List.mem_cons_self _ _, List.mem_cons_self _ _⟩

theorem foldl_items_inv (source : List Char) (items : List Item) (st : CrawlState)
    (h : StateInv st) : StateInv (items.foldl (process_item source) st) := by
  induction items generalizing st with
  | nil => exact h
  | cons it rest ih => exact ih _ (process_item_inv source st it h)

theorem crawl_collect_inv (sources : List (List Char × Option (List Char))) :
    StateInv (crawl_collect sources) := by
  have hstep : ∀ (st : CrawlState) (src : List Char × Option (List Char)),
      StateInv st → StateInv (process_source st src) :=
    fun st src h => foldl_items_inv src.1 _ st h
  unfold crawl_collect
  generalize hinit : ({ articles := [], seen_urls := [], seen_titles := [] } : CrawlState) = st0
  have h0 : StateInv st0 := by
    subst hinit
    exact ⟨List.Pairwise.nil, by simp⟩
  clear hinit
  induction sources generalizing st0 with
  | nil => exact h0
  | cons s rest ih => exact ih _ (hstep st0 s h0)

/-- `distinctIdent` is symmetric, so it survives the sorting
permutation. -/
theorem distinctIdent_symm {a b : Article} (h : distinctIdent a b) : distinctIdent b a :=
  ⟨Ne.symm h.1, Ne.symm h.2⟩

/-- C8: deduplication invariant.  In the article list produced by one
run, no two articles share a url and no two share a normalized title
(case-folded, non-alphanumeric characters stripped); moreover an entry
whose url or normalized title is already recorded is discarded, leaving
the state unchanged. -/
theorem crawl_dedup_invariant (sources : List (List Char × Option (List Char)))
    (now : DateTime) :
    List.Pairwise distinctIdent (crawl_news_articles sources now)
    ∧ (∀ (source : List Char) (st : CrawlState) (it : Item),
      (decide (it.link ∈ st.seen_urls)
        || decide (normalize_title it.title ∈ st.seen_titles)) = true →
      process_item source st it = st) := by
  constructor
  · have hcol := (crawl_collect_inv sources).1
    have hfil : List.Pairwise distinctIdent
        ((crawl_collect sources).articles.filter (fun a => is_recent_enough a now)) :=
      hcol.sublist (List.filter_sublist _)
    have hperm := List.perm_insertionSort sortGE
      ((crawl_collect sources).articles.filter (fun a => is_recent_enough a now))
    exact (hperm.pairwise_iff (fun h => distinctIdent_symm h)).mpr hfil
  · intro source st it hseen
    exact process_item_seen source st it hseen

/-- C8 witness: the duplicate-url item is discarded, leaving the state
unchanged. -/
theorem crawl_dedup_invariant_witness :
    process_item ("WIS Columbia".toList) c8State c8DupItem = c8State := by
  exact (crawl_dedup_invariant [] c10Now).2 _ _ _ (by decide)

/-- C6: final order of one run.  The returned list is sorted descending
by the sort key — the parsed timestamp, with parse failures keyed as the
minimum timestamp — and, whenever the run instant lies more than one
window above the minimum timestamp (true of any wall clock), every
article with an unparseable date comes after every article with a
parseable one. -/
theorem crawl_sort_order (sources : List (List Char × Option (List Char)))
    (now : DateTime) :
    List.Pairwise sortGE (crawl_news_articles sources now)
    ∧ (minTimestamp + 604800 < now.ts →
      List.Pairwise (fun a b => parse_date a.published = none → parse_date b.published = none)
        (crawl_news_articles sources now)) := by
  have hsorted : List.Pairwise sortGE (crawl_news_articles sources now) :=
    List.sorted_insertionSort sortGE
      ((crawl_collect sources).articles.filter (fun a => is_recent_enough a now))
  refine ⟨hsorted, fun hnow => ?_⟩
  refine hsorted.imp_of_mem ?_
  intro a b ha hb hle hpa
  cases hpb : parse_date b.published with
  | none => rfl
  | some t =>
    exfalso
    have hbf : b ∈ (crawl_collect sources).articles.filter
        (fun a => is_recent_enough a now) :=
      (List.perm_insertionSort sortGE _).mem_iff.mp hb
    have hrec : is_recent_enough b now = true := (List.mem_filter.mp hbf).2
    simp only [is_recent_enough, hpb, decide_eq_true_eq] at hrec
    have hwin : now.ts - 604800 <= t := by
      split at hrec
      · omega
      · omega
    have hska : sortKeyTs a = minTimestamp := by simp [sortKeyTs, hpa]
    have hskb : sortKeyTs b = t := by simp [sortKeyTs, hpb]
    have hle2 : sortKeyTs b <= sortKeyTs a := hle
    rw [hska, hskb] at hle2
    omega

set_option maxRecDepth 400000 in
/-- C6 witness: on the concrete run the hypothesis on the wall clock
holds, the unparseable-last property follows, and the output is exactly
T3, T2, T1, unparseable. -/
theorem crawl_sort_order_witness :
    minTimestamp + 604800 < c6Now.ts
    ∧ List.Pairwise (fun a b => parse_date a.published = none → parse_date b.published = none)
        (crawl_news_articles c6Sources c6Now)
    ∧ crawl_news_articles c6Sources c6Now = [c6Gamma, c6Beta, c6Alpha, c6Omega] := by
  refine ⟨by decide, (crawl_sort_order c6Sources c6Now).2 (by decide), by decide⟩

end Crawl
